import Mathlib

/-!
# api2rest: resource-to-route synthesis, verified against `api.go` / `api_public.go`

A shallow embedding of the Go package `api2rest`.

* Go `string` values are Lean `String`s (valid UTF-8 text); byte-level helpers
  work on the character list.
* `int64` values are `Int`s, wrapped with `wrapInt64` where Go arithmetic can
  overflow.
* `error` values are their `Error()` message.
* `http.ResponseWriter` is a recorder of what a handler writes: the header
  map, the first status passed to `WriteHeader`, the headers as they stood at
  that moment, and the bytes written.
* The `*gorm.DB` handle, the JSON codec and the helpers `Jsonify` /
  `Pluralize` are collaborators that live outside the four source files; they
  are taken as parameters.
-/

namespace Api2rest

/-! ## Standard library: `strings`, `strconv` -/

/-- Go `strings.Trim(s, "/")`: drop every leading and trailing slash. -/
def trimSlashes (s : String) : String :=
  String.mk ((((s.data.dropWhile (· == '/')).reverse).dropWhile (· == '/')).reverse)

/-- The digit table `lowerhex` of package strconv. -/
def lowerhex (n : Nat) : Char :=
  if n % 16 < 10 then Char.ofNat (48 + n % 16) else Char.ofNat (87 + n % 16)

/-- Go `strconv.IsPrint`. Up to U+00FF the answer is computed as in the
library; above that the library consults Unicode tables, taken here as the
parameter `isPrintWide`. -/
def IsPrint (isPrintWide : Char → Bool) (r : Char) : Bool :=
  if r.toNat ≤ 0xFF then
    if 0x20 ≤ r.toNat ∧ r.toNat < 0x7F then true
    else if 0xA1 ≤ r.toNat then r.toNat != 0xAD
    else false
  else isPrintWide r

/-- Go `strconv.appendEscapedRune` with quote character `"`, not ASCII-only,
not graphic-only. -/
def appendEscapedRune (isPrintWide : Char → Bool) (r : Char) : List Char :=
  if r.toNat = 34 ∨ r.toNat = 92 then [Char.ofNat 92, r]
  else if IsPrint isPrintWide r then [r]
  else if r.toNat = 7 then [Char.ofNat 92, 'a']
  else if r.toNat = 8 then [Char.ofNat 92, 'b']
  else if r.toNat = 12 then [Char.ofNat 92, 'f']
  else if r.toNat = 10 then [Char.ofNat 92, 'n']
  else if r.toNat = 13 then [Char.ofNat 92, 'r']
  else if r.toNat = 9 then [Char.ofNat 92, 't']
  else if r.toNat = 11 then [Char.ofNat 92, 'v']
  else if r.toNat < 32 ∨ r.toNat = 0x7F then
    [Char.ofNat 92, 'x', lowerhex (r.toNat / 16), lowerhex r.toNat]
  else if r.toNat < 0x10000 then
    [Char.ofNat 92, 'u', lowerhex (r.toNat / 4096), lowerhex (r.toNat / 256),
      lowerhex (r.toNat / 16), lowerhex r.toNat]
  else
    [Char.ofNat 92, 'U', lowerhex (r.toNat / 268435456), lowerhex (r.toNat / 16777216),
      lowerhex (r.toNat / 1048576), lowerhex (r.toNat / 65536),
      lowerhex (r.toNat / 4096), lowerhex (r.toNat / 256),
      lowerhex (r.toNat / 16), lowerhex r.toNat]

/-- Go `strconv.Quote`: a double-quoted Go string literal for `s`. -/
def Quote (isPrintWide : Char → Bool) (s : String) : String :=
  String.mk ([Char.ofNat 34] ++ (s.data.map (appendEscapedRune isPrintWide)).flatten
    ++ [Char.ofNat 34])

/-- Outcome of the digit loop of `strconv.ParseUint(s, 10, 64)`. -/
inductive UintResult where
  | ok (n : Nat)
  | syntaxErr
  | rangeErr
  deriving DecidableEq, Repr

/-- The constant `maxUint64`. -/
def maxUint64 : Nat := 2 ^ 64 - 1

/-- The digit loop of `strconv.ParseUint` for base 10 and bit size 64: a byte
that is not a decimal digit is a syntax error; `n >= cutoff` (with
`cutoff = maxUint64/10 + 1`) or an overflowing `n*10 + d` is a range error. -/
def parseUintLoop : List Char → Nat → UintResult
  | [], n => .ok n
  | c :: cs, n =>
    if 48 ≤ c.toNat ∧ c.toNat ≤ 57 then
      if n ≥ maxUint64 / 10 + 1 then .rangeErr
      else if n * 10 + (c.toNat - 48) > maxUint64 then .rangeErr
      else parseUintLoop cs (n * 10 + (c.toNat - 48))
    else .syntaxErr

/-- Go `strconv.ParseUint(s, 10, 64)` on the bytes of `s`. -/
def ParseUint (s : List Char) : UintResult :=
  if s = [] then .syntaxErr else parseUintLoop s 0

/-- The message of a `*strconv.NumError` for function `ParseInt`. -/
def numErrorMessage (isPrintWide : Char → Bool) (num : String) (err : String) : String :=
  "strconv.ParseInt: parsing " ++ Quote isPrintWide num ++ ": " ++ err

/-- Go `strconv.ParseInt(s, 10, 64)`: the returned value and the error kind
(`none` for a nil error, otherwise the text of `ErrSyntax` or `ErrRange`). -/
def ParseInt (s : String) : Int × Option String :=
  if s.data = [] then (0, some "invalid syntax")
  else
    let neg : Bool := s.data.head? = some '-'
    let rest : List Char :=
      if s.data.head? = some '+' then s.data.tail
      else if s.data.head? = some '-' then s.data.tail
      else s.data
    match ParseUint rest with
    | .syntaxErr => (0, some "invalid syntax")
    | .rangeErr =>
      -- ParseUint returned maxVal, which is at least the cutoff 1<<63
      if neg then (-(2 ^ 63 : Int), some "value out of range")
      else ((2 ^ 63 : Int) - 1, some "value out of range")
    | .ok un =>
      if !neg ∧ un ≥ 2 ^ 63 then ((2 ^ 63 : Int) - 1, some "value out of range")
      else if neg ∧ un > 2 ^ 63 then (-(2 ^ 63 : Int), some "value out of range")
      else if neg then (-(un : Int), none)
      else ((un : Int), none)

/-- Two's-complement wrap of a mathematical integer into the `int64` range. -/
def wrapInt64 (x : Int) : Int := (x + 2 ^ 63) % 2 ^ 64 - 2 ^ 63

/-! ## Standard library: `net/http` -/

/-- An `http.Header` restricted to single-valued keys, most recent first. The
keys used by the package (`Content-Type`, `Allow`) are already canonical. -/
abbrev Header := List (String × String)

/-- Go `Header.Set`. -/
def Header.Set (h : Header) (key value : String) : Header :=
  (key, value) :: h.filter (fun kv => kv.1 != key)

/-- Go `Header.Get`: the value of `key`, or the empty string. -/
def Header.Get (h : Header) (key : String) : String :=
  match h.find? (fun kv => kv.1 == key) with
  | some kv => kv.2
  | none => ""

/-- An `http.ResponseWriter` as a recorder. `header` is the map returned by
`Header()`; `wroteHeader`, `status` and `sentHeader` are fixed by the first
`WriteHeader`; `body` holds the bytes written. -/
structure ResponseWriter where
  header : Header
  wroteHeader : Bool
  status : Nat
  sentHeader : Header
  body : String
  deriving DecidableEq, Repr

/-- A response on which nothing has been set or written yet. -/
def ResponseWriter.fresh : ResponseWriter :=
  { header := [], wroteHeader := false, status := 0, sentHeader := [], body := "" }

/-- Go `w.Header().Set(key, value)`. -/
def ResponseWriter.HeaderSet (w : ResponseWriter) (key value : String) : ResponseWriter :=
  { w with header := Header.Set w.header key value }

/-- Go `w.WriteHeader(code)`: the first call fixes the status and snapshots
the header map; a later call is superfluous and changes nothing. -/
def ResponseWriter.WriteHeader (w : ResponseWriter) (code : Nat) : ResponseWriter :=
  if w.wroteHeader then w
  else { w with wroteHeader := true, status := code, sentHeader := w.header }

/-- Go `w.Write(data)`: an implicit `WriteHeader(200)` when no header was
written, then the bytes are appended to the body. -/
def ResponseWriter.Write (w : ResponseWriter) (data : String) : ResponseWriter :=
  let w1 := if w.wroteHeader then w else w.WriteHeader 200
  { w1 with body := w1.body ++ data }

/-- The parts of an `*http.Request` the package reads: the method, the parsed
query values `r.URL.Query()` in order, and the body. -/
structure Request where
  method : String
  query : List (String × String)
  body : String
  deriving DecidableEq, Repr

/-- Go `url.Values.Get`: the first value of `key`, or the empty string. -/
def Request.queryGet (r : Request) (key : String) : String :=
  match r.query.find? (fun kv => kv.1 == key) with
  | some kv => kv.2
  | none => ""

/-! ## Collaborators outside the four source files -/

/-- The JSON codec (`encoding/json`) for the record type of a resource.
`Encode` and `EncodeSlice` give the bytes `json.NewEncoder(w).Encode` writes
for a record and for a slice of records (`none` when marshalling fails, in
which case nothing is written); `Decode` is `json.NewDecoder(body).Decode`
into a zero-value record (`none` on a decode error). -/
structure Codec (Rec : Type) where
  Encode : Rec → Option String
  EncodeSlice : List Rec → Option String
  Decode : String → Option Rec

/-- A list query as handed to gorm: `DB.Limit(limit)` with or without
`.Offset(offset)`. -/
structure Query where
  limit : Int
  offset : Option Int
  deriving DecidableEq, Repr

/-- The storage contract behind `*gorm.DB`, over a store state `σ`. An
operation that reports an error leaves the store unchanged.

* `Find db q slice`: `DB.Limit(..)[.Offset(..)].Find(slice)`; the result is the
  new content of the slice the handler passed in.
* `First db id`: `DB.First(newObj, id)`.
* `Create db obj`: `DB.Create(newObj)`, returning the stored record.
* `Updates db old new`: `DB.Model(oldObj).Updates(newObj)`.
* `Delete db id`: `DB.Where("id = ?", id).Delete(newObj)`. -/
structure Store (σ Rec : Type) where
  Find : σ → Query → List Rec → Except String (List Rec)
  First : σ → Int → Except String Rec
  Create : σ → Rec → Except String (σ × Rec)
  Updates : σ → Rec → Rec → Except String σ
  Delete : σ → String → Except String σ

/-! ## `api.go`: data model -/

/-- The constant `defaultLimit`. -/
def defaultLimit : Int := 25

/-- The values of `reflect.Kind` that matter to registration. -/
inductive Kind where
  | Struct | Ptr | Bool | Int | Float64 | String | Slice | Map | Func
  deriving DecidableEq

/-- What the package observes of a `reflect.Type`: `Kind()`, `Name()` (empty
for an unnamed type such as `*T`) and, for a pointer type, the kind and name
of `Elem()`. -/
structure RType where
  kind : Kind
  name : String
  elem : Option (Kind × String)
  deriving DecidableEq

/-- A value passed to `AddResource`: its dynamic type and, when that type
implements `EntityNamer`, the string `GetName()` returns. -/
structure Prototype where
  rtype : RType
  entityName : Option String
  deriving DecidableEq

/-- The struct `resource` (its `api` back-pointer is the API it is used with). -/
structure resource where
  resourceType : RType
  name : String
  deriving DecidableEq

/-- The closures `addResource` hands to the router, one per `Handle` call. -/
inductive Binding where
  | optionsBase | optionsItem | index | read | create | delete | update
  deriving DecidableEq, Repr

/-- One `router.Handle(protocol, route, handler)` registration. -/
structure Route where
  protocol : String
  route : String
  handler : Binding
  deriving DecidableEq, Repr

/-- Modelled from the spec: the pooled per-request context (`APIContext`, whose
source file is not among the four). It is a reusable scratch object; `id`
stands for the pointer identity and `keys` for the data it carries. -/
structure APIContext where
  id : Nat
  keys : List (String × String)
  deriving DecidableEq, Repr

/-- Modelled from the spec: `Reset` puts the context in a clean state,
discarding any data from its previous use. -/
def APIContext.Reset (c : APIContext) : APIContext := { c with keys := [] }

/-- The type `HandlerFunc` of a middleware. A middleware may change the data of
the context it is given, write to the response and change the request. `tag`
identifies the function value in traces. -/
structure HandlerFunc where
  tag : Nat
  run : List (String × String) → ResponseWriter → Request →
    List (String × String) × ResponseWriter × Request

/-- The struct `information`: the path prefix and whether the resolver is a
`RequestAwareURLResolver`. -/
structure information where
  pathPrefix : String
  requestAware : Bool

/-- The struct `API`, without the storage handle and the pool content, which
are part of the run-time `State`. `contextAllocator` holds the data of the
context a custom allocator returns. -/
structure API where
  ContentType : String
  router : List Route
  info : information
  resources : List resource
  middlewares : List HandlerFunc
  contextAllocator : Option (List (String × String))

/-- What a binding does that is visible from outside the handler bodies. -/
inductive Event where
  | setRequest
  | poolGet (c : Nat)
  | reset (c : Nat)
  | middleware (tag : Nat) (c : Nat)
  | handler (b : Binding) (c : Nat)
  | poolPut (c : Nat)
  | handleError
  deriving DecidableEq, Repr

/-- The state a request runs against: the store behind `api.DB`, the contexts
lying in `api.contextPool`, the allocation counter, the request last bound to
a request-aware resolver, and the events so far. -/
structure State (σ : Type) where
  db : σ
  idle : List APIContext
  nextId : Nat
  boundRequest : Option Request
  trace : List Event

/-! ## `api_public.go` -/

/-- The function `newAPI`. -/
def newAPI (pathPrefix : String) (requestAware : Bool) (router : List Route) : API :=
  { ContentType := "application/vnd.api+json"
    router := router
    info := { pathPrefix := pathPrefix, requestAware := requestAware }
    resources := []
    middlewares := []
    contextAllocator := none }

/-- The method `UseMiddleware`: `append(api.middlewares, middleware...)`. -/
def UseMiddleware (api : API) (middleware : List HandlerFunc) : API :=
  { api with middlewares := api.middlewares ++ middleware }

/-- The method `SetContextAllocator`. -/
def SetContextAllocator (api : API) (allocator : Option (List (String × String))) : API :=
  { api with contextAllocator := allocator }

/-! ## `api.go`: error translation and the CRUD handlers -/

/-- The method `API.handleError`: set the content type, `WriteHeader(404)`, then
`fmt.Fprintf(w, "{\"error\":%q}", err)`, where `%q` applied to an error is
`strconv.Quote(err.Error())`. -/
def handleError (isPrintWide : Char → Bool) (err : String) (w : ResponseWriter) :
    ResponseWriter :=
  let w := w.HeaderSet "Content-Type" "application/json"
  let w := w.WriteHeader 404
  w.Write ("\x7b\"error\":" ++ Quote isPrintWide err ++ "\x7d")

/-- The method `notAllowedHandler.ServeHTTP`. -/
def notAllowedHandler.ServeHTTP (isPrintWide : Char → Bool) (w : ResponseWriter)
    (_r : Request) : ResponseWriter :=
  let err := "Method Not Allowed"
  let w := w.WriteHeader 405
  handleError isPrintWide err w

/-- The call `json.NewEncoder(w).Encode(v)` for already marshalled bytes: the
bytes are written, or nothing is when marshalling failed. -/
def writeJSON (w : ResponseWriter) (bytes : Option String) : ResponseWriter :=
  match bytes with
  | some b => w.Write b
  | none => w

/-- The values `handleIndex` computes before it queries the store. -/
structure Paging where
  page : Int
  limit : Int
  offset : Int
  deriving DecidableEq, Repr

/-- Lines 227-250 of `handleIndex`: `page` starts at the zero value and is
parsed (error or below 1 gives 1) only when the parameter is not empty;
`limit` starts at `defaultLimit` and is parsed (error gives `defaultLimit`)
only when the parameter is not empty; `offset = (page - 1) * limit` in
`int64` arithmetic. -/
def handleIndexPaging (r : Request) : Paging :=
  let page : Int := 0
  let limit : Int := defaultLimit
  let page : Int :=
    if r.queryGet "page" ≠ "" then
      let parsed := ParseInt (r.queryGet "page")
      let page := if parsed.2.isSome then 1 else parsed.1
      if page < 1 then 1 else page
    else page
  let limit : Int :=
    if r.queryGet "limit" ≠ "" then
      let parsed := ParseInt (r.queryGet "limit")
      if parsed.2.isSome then defaultLimit else parsed.1
    else limit
  { page := page, limit := limit, offset := wrapInt64 (wrapInt64 (page - 1) * limit) }

/-- What a CRUD handler leaves behind: the returned error (`none` for nil), the
response and the store. -/
structure HandlerOut (σ : Type) where
  err : Option String
  w : ResponseWriter
  db : σ

/-- The outcome of `handleIndex`, with the store queries it issued, in order,
and the slice it handed to the JSON encoder (`none` when it returned early). -/
structure IndexOut (Rec : Type) where
  err : Option String
  w : ResponseWriter
  queries : List Query
  written : Option (List Rec)

/-- The method `resource.handleIndex`. The slice starts empty; when
`offset > 0` the limit-and-offset query fills it; then, unless that query
failed, the limit-only query is run on the same slice, and the slice is
encoded. -/
def handleIndex {σ Rec : Type} (codec : Codec Rec) (store : Store σ Rec) (db : σ)
    (w : ResponseWriter) (r : Request) : IndexOut Rec :=
  let p := handleIndexPaging r
  let slice : List Rec := []
  let first : Except String (List Rec) × List Query :=
    if p.offset > 0 then
      (store.Find db { limit := p.limit, offset := some p.offset } slice,
        [{ limit := p.limit, offset := some p.offset }])
    else (.ok slice, [])
  match first with
  | (.error _, qs) =>
    { err := some "Failed to get objects"
      w := (w.HeaderSet "Content-Type" "application/json").WriteHeader 404
      queries := qs
      written := none }
  | (.ok slice, qs) =>
    match store.Find db { limit := p.limit, offset := none } slice with
    | .error _ =>
      { err := some "Failed to get objects"
        w := (w.HeaderSet "Content-Type" "application/json").WriteHeader 404
        queries := qs ++ [{ limit := p.limit, offset := none }]
        written := none }
    | .ok slice =>
      { err := none
        w := writeJSON (w.HeaderSet "Content-Type" "application/json") (codec.EncodeSlice slice)
        queries := qs ++ [{ limit := p.limit, offset := none }]
        written := some slice }

/-- Go `params["id"]` on the path parameters: the value, or the empty string. -/
def paramGet (params : List (String × String)) (key : String) : String :=
  match params.find? (fun kv => kv.1 == key) with
  | some kv => kv.2
  | none => ""

/-- The method `resource.handleRead`. -/
def handleRead {σ Rec : Type} (isPrintWide : Char → Bool) (codec : Codec Rec)
    (store : Store σ Rec) (db : σ) (w : ResponseWriter)
    (params : List (String × String)) : HandlerOut σ :=
  match ParseInt (paramGet params "id") with
  | (_, some e) =>
    { err := some (numErrorMessage isPrintWide (paramGet params "id") e), w := w, db := db }
  | (id, none) =>
    match store.First db id with
    | .error e => { err := some e, w := w, db := db }
    | .ok newObj =>
      { err := none
        w := writeJSON (w.HeaderSet "Content-Type" "application/json") (codec.Encode newObj)
        db := db }

/-- The method `resource.handleCreate`. -/
def handleCreate {σ Rec : Type} (codec : Codec Rec) (store : Store σ Rec) (db : σ)
    (w : ResponseWriter) (r : Request) : HandlerOut σ :=
  match codec.Decode r.body with
  | none => { err := some "Failed to decode json", w := w, db := db }
  | some newObj =>
    match store.Create db newObj with
    | .error _ => { err := some "Failed to create object", w := w, db := db }
    | .ok (db1, stored) =>
      { err := none
        w := writeJSON (w.HeaderSet "Content-Type" "application/json") (codec.Encode stored)
        db := db1 }

/-- The method `resource.handleDelete`: the identity is the raw path parameter;
the only failure is an error reported by the store. -/
def handleDelete {σ Rec : Type} (store : Store σ Rec) (db : σ) (w : ResponseWriter)
    (params : List (String × String)) : HandlerOut σ :=
  let id := paramGet params "id"
  match store.Delete db id with
  | .error _ => { err := some "Failed to delete object", w := w, db := db }
  | .ok db1 => { err := none, w := w, db := db1 }

/-- The method `resource.handleUpdate`. -/
def handleUpdate {σ Rec : Type} (isPrintWide : Char → Bool) (codec : Codec Rec)
    (store : Store σ Rec) (db : σ) (w : ResponseWriter) (r : Request)
    (params : List (String × String)) : HandlerOut σ :=
  match ParseInt (paramGet params "id") with
  | (_, some e) =>
    { err := some (numErrorMessage isPrintWide (paramGet params "id") e), w := w, db := db }
  | (id, none) =>
    match codec.Decode r.body with
    | none => { err := some "Failed to decode json", w := w, db := db }
    | some newObj =>
      match store.First db id with
      | .error _ => { err := some "Unable to find object for update", w := w, db := db }
      | .ok oldObj =>
        match store.Updates db oldObj newObj with
        | .error _ => { err := some "Failed to update object", w := w, db := db }
        | .ok db1 =>
          { err := none
            w := writeJSON (w.HeaderSet "Content-Type" "application/json")
              (codec.Encode newObj)
            db := db1 }

/-! ## `api.go`: registration -/

/-- The router method `Handle(protocol, route, handler)`: one more binding. -/
def Handle (router : List Route) (protocol route : String) (handler : Binding) : List Route :=
  router ++ [{ protocol := protocol, route := route, handler := handler }]

/-- The method `API.addResource`. A panic is an `Except.error` carrying the
panic value. `Jsonify` and `Pluralize` are the package helpers of that name,
whose source file is not among the four. The result is the API with its router
updated, and the resource. -/
def addResource (Jsonify Pluralize : String → String) (api : API) (prototype : Prototype) :
    Except String (API × resource) :=
  let resourceType := prototype.rtype
  if resourceType.kind ≠ Kind.Struct ∧ resourceType.kind ≠ Kind.Ptr then
    .error "pass an empty resource struct or a struct pointer to AddResource!"
  else
    let typeName : Except String String :=
      if resourceType.kind = Kind.Struct then .ok resourceType.name
      else
        match resourceType.elem with
        | some e => .ok e.2
        | none => .error "reflect: Elem of invalid type"
    match typeName with
    | .error e => .error e
    | .ok name =>
      let name : String :=
        match prototype.entityName with
        | some entityName => entityName
        | none => Jsonify (Pluralize name)
      let res : resource := { resourceType := resourceType, name := name }
      let pfx := trimSlashes api.info.pathPrefix
      let baseURL := "/" ++ name
      let baseURL := if pfx ≠ "" then "/" ++ pfx ++ baseURL else baseURL
      let router := Handle api.router "OPTIONS" baseURL .optionsBase
      let router := Handle router "OPTIONS" (baseURL ++ "/:id") .optionsItem
      let router := Handle router "GET" baseURL .index
      let router := Handle router "GET" (baseURL ++ "/:id") .read
      let router := Handle router "POST" baseURL .create
      let router := Handle router "DELETE" (baseURL ++ "/:id") .delete
      let router := Handle router "PATCH" (baseURL ++ "/:id") .update
      .ok ({ api with router := router }, res)

/-- The method `API.AddResource`: `addResource` with the resource dropped. -/
def AddResource (Jsonify Pluralize : String → String) (api : API) (prototype : Prototype) :
    Except String API :=
  match addResource Jsonify Pluralize api prototype with
  | .error e => .error e
  | .ok (api1, _) => .ok api1

/-! ## `api.go`: what a binding does on a request -/

/-- Append an event to the trace. -/
def State.log {σ : Type} (s : State σ) (e : Event) : State σ :=
  { s with trace := s.trace ++ [e] }

/-- The call `api.contextPool.Get()`: a context lying in the pool, or a new one
from the pool's `New` function (the custom allocator when set,
`allocateDefaultContext` otherwise). A `sync.Pool` may hand out any context it
holds; the most recently returned one is taken. -/
def contextPoolGet {σ : Type} (api : API) (s : State σ) : APIContext × State σ :=
  match s.idle with
  | c :: rest => (c, { s with idle := rest, trace := s.trace ++ [.poolGet c.id] })
  | [] =>
    ({ id := s.nextId, keys := api.contextAllocator.getD [] },
      { s with nextId := s.nextId + 1, trace := s.trace ++ [.poolGet s.nextId] })

/-- The call `api.contextPool.Put(c)`. -/
def contextPoolPut {σ : Type} (c : APIContext) (s : State σ) : State σ :=
  { s with idle := c :: s.idle, trace := s.trace ++ [.poolPut c.id] }

/-- The closure `requestInfo` of `addResource`: a request-aware resolver is
bound to the request; the `information` it returns is not read by any handler. -/
def requestInfo {σ : Type} (api : API) (r : Request) (s : State σ) : State σ :=
  if api.info.requestAware then
    { s with boundRequest := some r, trace := s.trace ++ [.setRequest] }
  else s

/-- A context in use, the response, the request and the state. -/
structure Running (σ : Type) where
  c : APIContext
  w : ResponseWriter
  r : Request
  s : State σ

/-- The method `API.middlewareChain`: every middleware of the list, in order,
on the same context. -/
def middlewareChain {σ : Type} : List HandlerFunc → Running σ → Running σ
  | [], x => x
  | m :: ms, x =>
    let out := m.run x.c.keys x.w x.r
    middlewareChain ms
      { c := { x.c with keys := out.1 }, w := out.2.1, r := out.2.2,
        s := x.s.log (.middleware m.tag x.c.id) }

/-- The three statements every binding has in common: `contextPool.Get()`,
`c.Reset()`, `api.middlewareChain(c, w, r)`. -/
def acquire {σ : Type} (api : API) (w : ResponseWriter) (r : Request) (s : State σ) :
    Running σ :=
  let got := contextPoolGet api s
  let c := got.1.Reset
  middlewareChain api.middlewares { c := c, w := w, r := r, s := got.2.log (.reset c.id) }

/-- The tail of a CRUD binding: `if err != nil { api.handleError(err, w, r) }`. -/
def report {σ : Type} (isPrintWide : Char → Bool) (err : Option String) (w : ResponseWriter)
    (s : State σ) : ResponseWriter × State σ :=
  match err with
  | some e => (handleError isPrintWide e w, s.log .handleError)
  | none => (w, s)

/-- The closure registered for binding `b`, run on path parameters `params`,
response `w` and request `r` in state `s`. -/
def serve {σ Rec : Type} (isPrintWide : Char → Bool) (codec : Codec Rec) (store : Store σ Rec)
    (api : API) (b : Binding) (params : List (String × String)) (w : ResponseWriter)
    (r : Request) (s : State σ) : ResponseWriter × State σ :=
  match b with
  | .optionsBase =>
    let x := acquire api w r s
    let s := x.s.log (.handler .optionsBase x.c.id)
    let w := (x.w.HeaderSet "Allow" "GET,POST,PATCH,OPTIONS").WriteHeader 204
    (w, contextPoolPut x.c s)
  | .optionsItem =>
    let x := acquire api w r s
    let s := x.s.log (.handler .optionsItem x.c.id)
    let w := (x.w.HeaderSet "Allow" "GET,PATCH,DELETE,OPTIONS").WriteHeader 204
    (w, contextPoolPut x.c s)
  | .index =>
    let s := requestInfo api r s
    let x := acquire api w r s
    let s := x.s.log (.handler .index x.c.id)
    let out := handleIndex codec store s.db x.w x.r
    let s := contextPoolPut x.c s
    report isPrintWide out.err out.w s
  | .read =>
    let s := requestInfo api r s
    let x := acquire api w r s
    let s := x.s.log (.handler .read x.c.id)
    let out := handleRead isPrintWide codec store s.db x.w params
    let s := contextPoolPut x.c { s with db := out.db }
    report isPrintWide out.err out.w s
  | .create =>
    let s := requestInfo api r s
    let x := acquire api w r s
    let s := x.s.log (.handler .create x.c.id)
    let out := handleCreate codec store s.db x.w x.r
    let s := contextPoolPut x.c { s with db := out.db }
    report isPrintWide out.err out.w s
  | .delete =>
    let x := acquire api w r s
    let s := x.s.log (.handler .delete x.c.id)
    let out := handleDelete store s.db x.w params
    let s := contextPoolPut x.c { s with db := out.db }
    report isPrintWide out.err out.w s
  | .update =>
    let s := requestInfo api r s
    let x := acquire api w r s
    let s := x.s.log (.handler .update x.c.id)
    let out := handleUpdate isPrintWide codec store s.db x.w x.r params
    let s := contextPoolPut x.c { s with db := out.db }
    report isPrintWide out.err out.w s

/-! ## A reference store -/

/-- A record with an integer identity and one field. -/
structure Row where
  id : Int
  title : String
  deriving DecidableEq, Repr

/-- A table of rows with the SQL gorm issues: `Find` replaces the slice by the
rows selected with `LIMIT` / `OFFSET` (a negative value adds no clause);
`First` fails with gorm's "record not found" when no row has the identity;
`Create` stores the row; `Updates` overwrites a non-empty title; `Delete` runs
`DELETE ... WHERE id = ?`, which removes the matching rows and is not an error
when no row matches. No operation fails for another reason. -/
def tableStore : Store (List Row) Row where
  Find := fun db q _slice =>
    let rows :=
      match q.offset with
      | some o => if o ≥ 0 then db.drop o.toNat else db
      | none => db
    .ok (if q.limit ≥ 0 then rows.take q.limit.toNat else rows)
  First := fun db id =>
    match db.find? (fun row => row.id == id) with
    | some row => .ok row
    | none => .error "record not found"
  Create := fun db obj => .ok (db ++ [obj], obj)
  Updates := fun db old new =>
    .ok (db.map (fun row =>
      if row.id = old.id ∧ new.title ≠ "" then { row with title := new.title } else row))
  Delete := fun db id =>
    .ok (db.filter (fun row => !(decide (ParseInt id = (row.id, none)))))

/-- A codec for `Row` that writes the titles; it stands for any JSON encoding,
no statement below looks inside the bytes. -/
def rowCodec : Codec Row where
  Encode := fun row => some (row.title ++ "\n")
  EncodeSlice := fun rows => some (String.join (rows.map (fun row => row.title ++ ";")) ++ "\n")
  Decode := fun body => if body = "" then none else some { id := 0, title := body }

/-- The table with identities `0 .. n-1`, in that order. -/
def sampleRows (n : Nat) : List Row :=
  (List.range n).map (fun i => { id := (i : Int), title := "row" })

/-! ## Vocabulary of the statements -/

/-- The base path the spec gives a resource named `name` under `pathPrefix`:
`/name` when the trimmed prefix is empty, `/trimmed/name` otherwise. -/
def specBasePath (pathPrefix name : String) : String :=
  if trimSlashes pathPrefix = "" then "/" ++ name
  else "/" ++ trimSlashes pathPrefix ++ "/" ++ name

/-- The seven bindings of the spec's route table for base path `base`, in the
order `addResource` registers them. -/
def specBindings (base : String) : List Route :=
  [ { protocol := "OPTIONS", route := base, handler := .optionsBase },
    { protocol := "OPTIONS", route := base ++ "/:id", handler := .optionsItem },
    { protocol := "GET", route := base, handler := .index },
    { protocol := "GET", route := base ++ "/:id", handler := .read },
    { protocol := "POST", route := base, handler := .create },
    { protocol := "DELETE", route := base ++ "/:id", handler := .delete },
    { protocol := "PATCH", route := base ++ "/:id", handler := .update } ]

/-- The identity of the context `contextPool.Get()` hands out in state `s`. -/
def nextContext {σ : Type} (s : State σ) : Nat :=
  match s.idle with
  | c :: _ => c.id
  | [] => s.nextId

/-- Whether a binding is one of the five that call a CRUD handler. -/
def Binding.isCRUD : Binding → Bool
  | .optionsBase => false
  | .optionsItem => false
  | _ => true

/-- The state in which a binding takes its context: the GET, POST and PATCH
closures call `requestInfo` first, the others do not. -/
def entry {σ : Type} (api : API) (b : Binding) (r : Request) (s : State σ) : State σ :=
  match b with
  | .index => requestInfo api r s
  | .read => requestInfo api r s
  | .create => requestInfo api r s
  | .update => requestInfo api r s
  | _ => s

/-- The CRUD handler a binding calls, on the arguments the closure passes; the
two OPTIONS bindings call none. -/
def crud {σ Rec : Type} (isPrintWide : Char → Bool) (codec : Codec Rec) (store : Store σ Rec)
    (b : Binding) (db : σ) (w : ResponseWriter) (r : Request)
    (params : List (String × String)) : HandlerOut σ :=
  match b with
  | .index =>
    { err := (handleIndex codec store db w r).err, w := (handleIndex codec store db w r).w,
      db := db }
  | .read => handleRead isPrintWide codec store db w params
  | .create => handleCreate codec store db w r
  | .delete => handleDelete store db w params
  | .update => handleUpdate isPrintWide codec store db w r params
  | _ => { err := none, w := w, db := db }

/-- The failure response of the spec: status 404, content type
`application/json` among the headers sent, body `{"error":<quoted message>}`. -/
def IsFailureResponse (isPrintWide : Char → Bool) (message : String) (w : ResponseWriter) :
    Prop :=
  w.wroteHeader = true ∧ w.status = 404 ∧
  Header.Get w.sentHeader "Content-Type" = "application/json" ∧
  w.body = "\x7b\"error\":" ++ Quote isPrintWide message ++ "\x7d"

instance (isPrintWide : Char → Bool) (message : String) (w : ResponseWriter) :
    Decidable (IsFailureResponse isPrintWide message w) := by
  unfold IsFailureResponse
  infer_instance

/-- A middleware list none of whose members writes the response header or
body (each may still set headers and change the context or the request). -/
def QuietMiddlewares (ms : List HandlerFunc) : Prop :=
  ∀ m ∈ ms, ∀ (k : List (String × String)) (w : ResponseWriter) (r : Request),
    w.wroteHeader = false → w.body = "" →
      (m.run k w r).2.1.wroteHeader = false ∧ (m.run k w r).2.1.body = ""

/-! ## Concrete inputs -/

/-- A GET request with the given parsed query. -/
def getRequest (query : List (String × String)) : Request :=
  { method := "GET", query := query, body := "" }

/-- A DELETE request. -/
def deleteRequest : Request := { method := "DELETE", query := [], body := "" }

/-- A run-time state with an empty pool and an empty trace over store `db`. -/
def startState {σ : Type} (db : σ) : State σ :=
  { db := db, idle := [], nextId := 0, boundRequest := none, trace := [] }

/-- The prototype `Post{}` of a struct type `Post` without `GetName`. -/
def postValue : Prototype :=
  { rtype := { kind := .Struct, name := "Post", elem := none }, entityName := none }

/-- The prototype `&Post{}`. -/
def postPointer : Prototype :=
  { rtype := { kind := .Ptr, name := "", elem := some (.Struct, "Post") }, entityName := none }

/-- A prototype `&Post{}` whose type has `GetName() = "Articles"`. -/
def namedPointer : Prototype :=
  { rtype := { kind := .Ptr, name := "", elem := some (.Struct, "Post") },
    entityName := some "Articles" }

/-- A prototype of type `*MyInt`, for `type MyInt int` with
`func (m *MyInt) GetID() string`: a pointer to a named non-struct type. -/
def myIntPointer : Prototype :=
  { rtype := { kind := .Ptr, name := "", elem := some (.Int, "MyInt") }, entityName := none }

/-- A stand-in for `Jsonify`: lower-case the identifier. -/
def lowerJsonify (s : String) : String := String.mk (s.data.map Char.toLower)

/-- A stand-in for `Pluralize`: append an `s`. -/
def appendPluralize (s : String) : String := s ++ "s"

/-- A middleware that answers 401 itself; `HandlerFunc` has no way to stop the
chain, so the handler still runs after it. -/
def denyAll : HandlerFunc :=
  { tag := 7, run := fun k w r => (k, w.WriteHeader 401, r) }

/-- A middleware that answers 401 unless the query carries `token=ok`; on a
request it lets through it writes nothing. -/
def authGate : HandlerFunc :=
  { tag := 9
    run := fun k w r => if r.queryGet "token" = "ok" then (k, w, r) else (k, w.WriteHeader 401, r) }

/-- A middleware that only sets a response header. -/
def tagResponse : HandlerFunc :=
  { tag := 3, run := fun k w r => (k, w.HeaderSet "X-Request" "seen", r) }

/-- A middleware that only stores a value in the context. -/
def tagContext : HandlerFunc :=
  { tag := 5, run := fun k w r => (("user", "anonymous") :: k, w, r) }

/-! ## Lemmas -/

/-- Wrapping a factor before an `int64` multiplication does not change the wrapped product. -/
theorem wrapInt64_mul_wrap (a b : Int) : wrapInt64 (wrapInt64 a * b) = wrapInt64 (a * b) := by
  unfold wrapInt64
  have h : ((a + 2 ^ 63) % 2 ^ 64 - 2 ^ 63) * b + 2 ^ 63
      = (a * b + 2 ^ 63) + 2 ^ 64 * (-((a + 2 ^ 63) / 2 ^ 64) * b) := by
    have := Int.emod_add_ediv (a + 2 ^ 63) (2 ^ 64)
    have e : (a + 2 ^ 63) % 2 ^ 64 = a + 2 ^ 63 - 2 ^ 64 * ((a + 2 ^ 63) / 2 ^ 64) := by omega
    rw [e]; ring
  rw [h, Int.add_mul_emod_self_left]

/-- A wrapped value lies in the `int64` range. -/
theorem wrapInt64_range (x : Int) : -(2 ^ 63) ≤ wrapInt64 x ∧ wrapInt64 x < 2 ^ 63 := by
  unfold wrapInt64
  omega

/-- The store queries `handleIndex` issues: the offset query first when the offset is
positive, followed by the limit-only query unless the offset query failed. -/
theorem handleIndex_queries_eq {σ Rec : Type} (codec : Codec Rec) (store : Store σ Rec) (db : σ)
    (w : ResponseWriter) (r : Request) :
    (handleIndex codec store db w r).queries =
      if 0 < (handleIndexPaging r).offset then
        (match store.Find db (Query.mk (handleIndexPaging r).limit (some (handleIndexPaging r).offset)) [] with
        | .error _ => [(Query.mk (handleIndexPaging r).limit (some (handleIndexPaging r).offset))]
        | .ok _ => [(Query.mk (handleIndexPaging r).limit (some (handleIndexPaging r).offset)),
            (Query.mk (handleIndexPaging r).limit none)])
      else [(Query.mk (handleIndexPaging r).limit none)] := by
  unfold handleIndex
  by_cases h : 0 < (handleIndexPaging r).offset
  · simp only [gt_iff_lt, h, if_true]
    cases h1 : store.Find db (Query.mk (handleIndexPaging r).limit (some (handleIndexPaging r).offset)) [] with
    | error e => simp
    | ok sl =>
      simp only
      cases h2 : store.Find db (Query.mk (handleIndexPaging r).limit none) sl <;> simp
  · simp only [gt_iff_lt, h, if_false]
    cases h2 : store.Find db (Query.mk (handleIndexPaging r).limit none) [] <;> simp

/-- Whatever `handleIndex` hands to the encoder is the result of the limit-only query. -/
theorem handleIndex_written_eq {σ Rec : Type} (codec : Codec Rec) (store : Store σ Rec) (db : σ)
    (w : ResponseWriter) (r : Request) (slice : List Rec)
    (h : (handleIndex codec store db w r).written = some slice) :
    ∃ prev, store.Find db (Query.mk (handleIndexPaging r).limit none) prev
      = .ok slice := by
  unfold handleIndex at h
  by_cases hp : 0 < (handleIndexPaging r).offset
  · simp only [gt_iff_lt, hp, if_true] at h
    cases h1 : store.Find db (Query.mk (handleIndexPaging r).limit (some (handleIndexPaging r).offset)) ([] : List Rec) with
    | error e => simp [h1] at h
    | ok sl =>
      simp only [h1] at h
      cases h2 : store.Find db (Query.mk (handleIndexPaging r).limit none) (sl : List Rec) with
      | error e => simp [h2] at h
      | ok s2 =>
        simp only [h2, Option.some.injEq] at h
        exact ⟨sl, by rw [h2, h]⟩
  · simp only [gt_iff_lt, hp, if_false] at h
    cases h2 : store.Find db (Query.mk (handleIndexPaging r).limit none) ([] : List Rec) with
    | error e => simp [h2] at h
    | ok s2 =>
      simp only [h2, Option.some.injEq] at h
      exact ⟨[], by rw [h2, h]⟩

/-- What a successful `addResource` returns: the seven bindings appended to the
router, and the name chosen for the resource. -/
theorem addResource_ok (Jsonify Pluralize : String → String) (api : API)
    (prototype : Prototype) (api1 : API) (res : resource)
    (h : addResource Jsonify Pluralize api prototype = .ok (api1, res)) :
    api1.router = api.router ++ specBindings (specBasePath api.info.pathPrefix res.name) ∧
    res.resourceType = prototype.rtype ∧
    (∀ n, prototype.entityName = some n → res.name = n) ∧
    (prototype.entityName = none → prototype.rtype.kind = Kind.Struct →
      res.name = Jsonify (Pluralize prototype.rtype.name)) ∧
    (prototype.entityName = none → prototype.rtype.kind = Kind.Ptr →
      ∀ k T, prototype.rtype.elem = some (k, T) → res.name = Jsonify (Pluralize T)) := by
  unfold addResource at h
  simp only at h
  split at h
  · simp at h
  · rename_i hk
    split at h
    · simp at h
    · rename_i name hname
      simp only [Except.ok.injEq, Prod.mk.injEq] at h
      obtain ⟨h1, h2⟩ := h
      subst h1 h2
      refine ⟨?_, rfl, ?_, ?_, ?_⟩
      · simp only [Handle, specBindings, specBasePath, List.append_assoc, List.singleton_append,
          List.cons_append, List.nil_append]
        by_cases hp : trimSlashes api.info.pathPrefix = ""
        · simp [hp]
        · simp [hp, String.append_assoc]
      · intro n hn
        simp [hn]
      · intro hn hs
        simp only [hs, if_true, Except.ok.injEq] at hname
        simp [hn, hname]
      · intro hn hp k T he
        have : ¬ prototype.rtype.kind = Kind.Struct := by rw [hp]; decide
        simp only [this, if_false, he, Except.ok.injEq] at hname
        simp [hn, hname]

/-- The middleware chain keeps the context identity, the store and the pool, and
logs one event per middleware, in list order. -/
theorem middlewareChain_spec {σ : Type} (ms : List HandlerFunc) (x : Running σ) :
    (middlewareChain ms x).c.id = x.c.id ∧
    (middlewareChain ms x).s.trace
      = x.s.trace ++ ms.map (fun m => Event.middleware m.tag x.c.id) ∧
    (middlewareChain ms x).s.db = x.s.db ∧
    (middlewareChain ms x).s.idle = x.s.idle ∧
    (middlewareChain ms x).s.nextId = x.s.nextId := by
  induction ms generalizing x with
  | nil => simp [middlewareChain]
  | cons m ms ih =>
    simp only [middlewareChain]
    obtain ⟨h1, h2, h3, h4, h5⟩ := ih
      { c := { x.c with keys := (m.run x.c.keys x.w x.r).1 }, w := (m.run x.c.keys x.w x.r).2.1,
        r := (m.run x.c.keys x.w x.r).2.2, s := x.s.log (.middleware m.tag x.c.id) }
    refine ⟨h1, ?_, h3, h4, h5⟩
    rw [h2]
    simp [State.log]

/-- The effect of `contextPool.Get()` on identity, trace, store and pool. -/
theorem contextPoolGet_spec {σ : Type} (api : API) (s : State σ) :
    (contextPoolGet api s).1.id = nextContext s ∧
    (contextPoolGet api s).2.trace = s.trace ++ [Event.poolGet (nextContext s)] ∧
    (contextPoolGet api s).2.db = s.db ∧
    (contextPoolGet api s).2.idle = s.idle.tail := by
  unfold contextPoolGet nextContext
  cases h : s.idle <;> simp

/-- The effect of the common opening of a binding. -/
theorem acquire_spec {σ : Type} (api : API) (w : ResponseWriter) (r : Request) (s : State σ) :
    (acquire api w r s).c.id = nextContext s ∧
    (acquire api w r s).s.trace
      = s.trace ++ [Event.poolGet (nextContext s), Event.reset (nextContext s)]
        ++ api.middlewares.map (fun m => Event.middleware m.tag (nextContext s)) ∧
    (acquire api w r s).s.db = s.db ∧
    (acquire api w r s).s.idle = s.idle.tail := by
  unfold acquire
  simp only
  obtain ⟨g1, g2, g3, g4⟩ := contextPoolGet_spec api s
  obtain ⟨h1, h2, h3, h4, _⟩ := middlewareChain_spec api.middlewares
    { c := (contextPoolGet api s).1.Reset, w := w, r := r,
      s := (contextPoolGet api s).2.log (.reset (contextPoolGet api s).1.Reset.id) }
  have hid : (contextPoolGet api s).1.Reset.id = nextContext s := by
    simp [APIContext.Reset, g1]
  refine ⟨by rw [h1]; exact hid, ?_, ?_, ?_⟩
  · rw [h2]
    simp [State.log, g2, hid]
  · rw [h3]; simp [State.log, g3]
  · rw [h4]; simp [State.log, g4]

/-- The closure `requestInfo` touches neither the pool nor the store. -/
theorem requestInfo_spec {σ : Type} (api : API) (r : Request) (s : State σ) :
    nextContext (requestInfo api r s) = nextContext s ∧
    (requestInfo api r s).db = s.db ∧
    (requestInfo api r s).idle = s.idle ∧
    ∃ pre, (∀ e ∈ pre, e = Event.setRequest) ∧ (requestInfo api r s).trace = s.trace ++ pre := by
  unfold requestInfo
  by_cases h : api.info.requestAware
  · rw [if_pos h]
    exact ⟨rfl, rfl, rfl, [.setRequest], by simp, rfl⟩
  · rw [if_neg h]
    exact ⟨rfl, rfl, rfl, [], by simp, by simp⟩

/-- The tail of a CRUD binding touches neither the pool nor the store. -/
theorem report_spec {σ : Type} (p : Char → Bool) (err : Option String) (w : ResponseWriter)
    (s : State σ) :
    (report p err w s).2.idle = s.idle ∧ (report p err w s).2.db = s.db ∧
    ∃ post, (∀ e ∈ post, e = Event.handleError) ∧ (report p err w s).2.trace = s.trace ++ post := by
  unfold report
  cases err with
  | none => exact ⟨rfl, rfl, [], by simp, by simp⟩
  | some e => exact ⟨rfl, rfl, [.handleError], by simp, rfl⟩

/-- Every CRUD binding has the same form around its handler. -/
theorem serve_crud {σ Rec : Type} (p : Char → Bool) (codec : Codec Rec) (store : Store σ Rec)
    (api : API) (b : Binding) (params : List (String × String))
    (w : ResponseWriter) (r : Request) (s : State σ) (hb : b.isCRUD = true) :
    serve p codec store api b params w r s =
      report p
        (crud p codec store b (acquire api w r (entry api b r s)).s.db
          (acquire api w r (entry api b r s)).w (acquire api w r (entry api b r s)).r params).err
        (crud p codec store b (acquire api w r (entry api b r s)).s.db
          (acquire api w r (entry api b r s)).w (acquire api w r (entry api b r s)).r params).w
        (contextPoolPut (acquire api w r (entry api b r s)).c
          { (acquire api w r (entry api b r s)).s.log
              (.handler b (acquire api w r (entry api b r s)).c.id) with
            db := (crud p codec store b (acquire api w r (entry api b r s)).s.db
              (acquire api w r (entry api b r s)).w (acquire api w r (entry api b r s)).r
              params).db }) := by
  cases b <;> first | rfl | simp [Binding.isCRUD] at hb

/-- The entry state differs from the given one by resolver events only. -/
theorem entry_spec {σ : Type} (api : API) (b : Binding) (r : Request) (s : State σ) :
    nextContext (entry api b r s) = nextContext s ∧
    (entry api b r s).db = s.db ∧
    (entry api b r s).idle = s.idle ∧
    ∃ pre, (∀ e ∈ pre, e = Event.setRequest) ∧ (entry api b r s).trace = s.trace ++ pre := by
  cases b <;> first
    | exact requestInfo_spec api r s
    | exact ⟨rfl, rfl, rfl, [], by simp, by simp [entry]⟩

/-- Reading back a header that was just set. -/
theorem Header.Get_Set (h : Header) (k v : String) : Header.Get (Header.Set h k v) k = v := by
  simp [Header.Get, Header.Set]

/-- On a response nothing was written to, `handleError` produces the failure response. -/
theorem handleError_unwritten (p : Char → Bool) (e : String) (w : ResponseWriter)
    (hw : w.wroteHeader = false) (hb : w.body = "") :
    IsFailureResponse p e (handleError p e w) := by
  simp [IsFailureResponse, handleError, ResponseWriter.Write, ResponseWriter.WriteHeader,
    ResponseWriter.HeaderSet, hw, hb, Header.Get_Set]

/-- After the list handler's own `WriteHeader(404)`, `handleError` still produces the
failure response. -/
theorem handleError_after_404 (p : Char → Bool) (e : String) (w : ResponseWriter)
    (hw : w.wroteHeader = false) (hb : w.body = "") :
    IsFailureResponse p e
      (handleError p e ((w.HeaderSet "Content-Type" "application/json").WriteHeader 404)) := by
  simp [IsFailureResponse, handleError, ResponseWriter.Write, ResponseWriter.WriteHeader,
    ResponseWriter.HeaderSet, hw, hb, Header.Get_Set]

/-- A CRUD handler that returns an error wrote no body; only the list handler
touched the response, with its own 404. -/
theorem crud_error_writer {σ Rec : Type} (p : Char → Bool) (codec : Codec Rec)
    (store : Store σ Rec) (b : Binding) (db : σ) (w : ResponseWriter) (r : Request)
    (params : List (String × String)) (e : String)
    (he : (crud p codec store b db w r params).err = some e) :
    (crud p codec store b db w r params).w = w ∨
    (crud p codec store b db w r params).w
      = (w.HeaderSet "Content-Type" "application/json").WriteHeader 404 := by
  cases b
  case optionsBase => left; rfl
  case optionsItem => left; rfl
  case index =>
    right
    simp only [crud, handleIndex] at he ⊢
    split at he <;> [skip; split at he] <;> simp_all
  case read =>
    left
    simp only [crud, handleRead] at he ⊢
    split at he <;> [skip; split at he] <;> simp_all
  case create =>
    left
    simp only [crud, handleCreate] at he ⊢
    split at he <;> [skip; split at he] <;> simp_all
  case delete =>
    left
    simp only [crud, handleDelete] at he ⊢
    split at he <;> simp_all
  case update =>
    left
    simp only [crud, handleUpdate] at he ⊢
    split at he
    · simp_all
    · split at he
      · simp_all
      · split at he
        · simp_all
        · split at he <;> simp_all

/-- Quiet middlewares leave the response unwritten. -/
theorem middlewareChain_quiet {σ : Type} (ms : List HandlerFunc) (x : Running σ)
    (hq : QuietMiddlewares ms) (hw : x.w.wroteHeader = false) (hb : x.w.body = "") :
    (middlewareChain ms x).w.wroteHeader = false ∧ (middlewareChain ms x).w.body = "" := by
  induction ms generalizing x with
  | nil => exact ⟨hw, hb⟩
  | cons m ms ih =>
    simp only [middlewareChain]
    have h1 := hq m (List.mem_cons_self m ms) x.c.keys x.w x.r hw hb
    exact ih _ (fun m' hm' => hq m' (List.mem_cons_of_mem m hm')) h1.1 h1.2

/-- Quiet middlewares leave the response unwritten when the handler starts. -/
theorem acquire_quiet {σ : Type} (api : API) (w : ResponseWriter) (r : Request) (s : State σ)
    (hq : QuietMiddlewares api.middlewares) (hw : w.wroteHeader = false) (hb : w.body = "") :
    (acquire api w r s).w.wroteHeader = false ∧ (acquire api w r s).w.body = "" := by
  unfold acquire
  exact middlewareChain_quiet _ _ hq hw hb

/-! ## Pagination of the list handler (C1, C2, C10) -/

/-- C1, evaluated on `GET /rows?limit=10&page=2` against a table of thirty
rows: `handleIndex` first runs the query with limit 10 and offset 10, then
runs the limit-only query into the same slice, and encodes the result of the
latter. The records written are the rows at offsets 0..9, not the rows at
offsets 10..19. -/
theorem handleIndex_page_two_encodes_first_page :
    (handleIndex rowCodec tableStore (sampleRows 30) ResponseWriter.fresh
        (getRequest [("limit", "10"), ("page", "2")])).queries
      = [Query.mk 10 (some 10), Query.mk 10 none] ∧
    (handleIndex rowCodec tableStore (sampleRows 30) ResponseWriter.fresh
        (getRequest [("limit", "10"), ("page", "2")])).err = none ∧
    (handleIndex rowCodec tableStore (sampleRows 30) ResponseWriter.fresh
        (getRequest [("limit", "10"), ("page", "2")])).written
      = some ((sampleRows 30).take 10) ∧
    (handleIndex rowCodec tableStore (sampleRows 30) ResponseWriter.fresh
        (getRequest [("limit", "10"), ("page", "2")])).written
      ≠ some (((sampleRows 30).drop 10).take 10) := by
  decide

/-- C2 as stated fails when `page` is absent: with an empty query the values
computed are page 0, limit 25 and offset -25, not page 1 and offset 0. -/
theorem handleIndexPaging_absent_page_is_zero :
    handleIndexPaging (getRequest []) = { page := 0, limit := 25, offset := -25 } ∧
    handleIndexPaging (getRequest []) ≠ { page := 1, limit := 25, offset := 0 } := by
  decide

/-- C2, amended: an absent (empty) `page` leaves the page value at 0; a `page`
that is present but does not parse gives 1, and a parsed page below 1 is
clamped to 1; an absent or unparsable `limit` gives 25, a parsed one is used
as it is; the offset is `(page - 1) * limit` in `int64` arithmetic. With both
absent the values are page 0, limit 25, offset -25; with both present and
unparsable they are page 1, limit 25, offset 0. -/
theorem handleIndexPaging_values (r : Request) :
    (r.queryGet "page" = "" → (handleIndexPaging r).page = 0) ∧
    (r.queryGet "page" ≠ "" → (ParseInt (r.queryGet "page")).2.isSome = true →
      (handleIndexPaging r).page = 1) ∧
    (r.queryGet "page" ≠ "" → (ParseInt (r.queryGet "page")).2 = none →
      (handleIndexPaging r).page = max 1 (ParseInt (r.queryGet "page")).1) ∧
    (r.queryGet "limit" = "" → (handleIndexPaging r).limit = 25) ∧
    (r.queryGet "limit" ≠ "" → (ParseInt (r.queryGet "limit")).2.isSome = true →
      (handleIndexPaging r).limit = 25) ∧
    (r.queryGet "limit" ≠ "" → (ParseInt (r.queryGet "limit")).2 = none →
      (handleIndexPaging r).limit = (ParseInt (r.queryGet "limit")).1) ∧
    (handleIndexPaging r).offset
      = wrapInt64 (((handleIndexPaging r).page - 1) * (handleIndexPaging r).limit) ∧
    (r.queryGet "page" = "" → r.queryGet "limit" = "" →
      handleIndexPaging r = { page := 0, limit := 25, offset := -25 }) ∧
    (r.queryGet "page" ≠ "" → (ParseInt (r.queryGet "page")).2.isSome = true →
      r.queryGet "limit" ≠ "" → (ParseInt (r.queryGet "limit")).2.isSome = true →
      handleIndexPaging r = { page := 1, limit := 25, offset := 0 }) := by
  refine ⟨?_, ?_, ?_, ?_, ?_, ?_, ?_, ?_, ?_⟩
  · intro h
    simp [handleIndexPaging, h]
  · intro h1 h2
    simp [handleIndexPaging, h1, h2]
  · intro h1 h2
    simp only [handleIndexPaging, ne_eq, h1, not_false_eq_true, if_true, h2, Option.isSome_none,
      Bool.false_eq_true, if_false]
    by_cases h3 : (ParseInt (r.queryGet "page")).1 < 1
    · simp only [h3, if_true]; omega
    · simp only [h3, if_false]; omega
  · intro h
    simp [handleIndexPaging, h, defaultLimit]
  · intro h1 h2
    simp [handleIndexPaging, h1, h2, defaultLimit]
  · intro h1 h2
    simp [handleIndexPaging, h1, h2]
  · simp only [handleIndexPaging]
    exact wrapInt64_mul_wrap _ _
  · intro h1 h2
    simp only [handleIndexPaging, ne_eq, h1, not_true_eq_false, if_false, h2, defaultLimit]
    decide
  · intro h1 h2 h3 h4
    simp only [handleIndexPaging, ne_eq, h1, not_false_eq_true, if_true, h2, h3, h4,
      defaultLimit]
    decide

/-- C2, amended, at `page=abc&limit=` and at `page=-4&limit=7`. -/
theorem handleIndexPaging_values_witness :
    (handleIndexPaging (getRequest [("page", "abc"), ("limit", "")])).page = 1 ∧
    (handleIndexPaging (getRequest [("page", "-4"), ("limit", "7")])).page = max 1 (-4) ∧
    (handleIndexPaging (getRequest [("page", "-4"), ("limit", "7")])).limit = 7 :=
  ⟨(handleIndexPaging_values (getRequest [("page", "abc"), ("limit", "")])).2.1
      (by decide) (by decide),
    (handleIndexPaging_values (getRequest [("page", "-4"), ("limit", "7")])).2.2.1
      (by decide) (by decide),
    (handleIndexPaging_values (getRequest [("page", "-4"), ("limit", "7")])).2.2.2.2.2.1
      (by decide) (by decide)⟩

/-- C10: whatever the query strings are, every store query of `handleIndex`
that carries an offset carries the computed offset and that offset is
strictly positive; when the computed offset is zero or negative the only
query issued is the limit-only one. The computed offset is an `int64`, the
wrapped product. -/
theorem handleIndex_offset_query_only_when_positive {σ Rec : Type} (codec : Codec Rec)
    (store : Store σ Rec) (db : σ) (w : ResponseWriter) (r : Request) :
    (∀ q ∈ (handleIndex codec store db w r).queries, ∀ o, q.offset = some o →
        0 < o ∧ o = (handleIndexPaging r).offset) ∧
    (¬ 0 < (handleIndexPaging r).offset →
      (handleIndex codec store db w r).queries
        = [Query.mk (handleIndexPaging r).limit none]) ∧
    (-(2 ^ 63) ≤ (handleIndexPaging r).offset ∧ (handleIndexPaging r).offset < 2 ^ 63) := by
  rw [handleIndex_queries_eq]
  refine ⟨?_, ?_, ?_⟩
  · intro q hq o ho
    by_cases h : 0 < (handleIndexPaging r).offset
    · simp only [h, if_true] at hq
      split at hq
      · simp only [List.mem_singleton] at hq
        subst hq
        simp only [Option.some.injEq] at ho
        subst ho
        exact ⟨h, rfl⟩
      · simp only [List.mem_cons, List.mem_singleton, List.not_mem_nil, or_false] at hq
        rcases hq with hq | hq
        · subst hq
          simp only [Option.some.injEq] at ho
          subst ho
          exact ⟨h, rfl⟩
        · subst hq
          simp at ho
    · simp only [h, if_false, List.mem_singleton] at hq
      subst hq
      simp at ho
  · intro h
    simp [h]
  · exact wrapInt64_range _

/-- C10 at `limit=4&page=4611686018427387905`, where `(page - 1) * limit` is
`2^64` and wraps to 0, and at `limit=-3&page=2`, where the offset is -3: only
the limit-only query is issued. -/
theorem handleIndex_offset_query_witness :
    (handleIndex rowCodec tableStore (sampleRows 5) ResponseWriter.fresh
        (getRequest [("limit", "4"), ("page", "4611686018427387905")])).queries
      = [Query.mk 4 none] ∧
    (handleIndex rowCodec tableStore (sampleRows 5) ResponseWriter.fresh
        (getRequest [("limit", "-3"), ("page", "2")])).queries
      = [Query.mk (-3) none] :=
  ⟨(handleIndex_offset_query_only_when_positive rowCodec tableStore (sampleRows 5)
      ResponseWriter.fresh (getRequest [("limit", "4"), ("page", "4611686018427387905")])).2.1
      (by decide),
    (handleIndex_offset_query_only_when_positive rowCodec tableStore (sampleRows 5)
      ResponseWriter.fresh (getRequest [("limit", "-3"), ("page", "2")])).2.1
      (by decide)⟩

/-! ## Registration (C3, C6, C7) -/

/-- C3: for every prefix and every prototype `addResource` accepts, the router
gains exactly the seven bindings of the route table and nothing else: OPTIONS,
GET and POST on the base path, OPTIONS, GET, DELETE and PATCH on the base path
followed by `/:id`, the base path being `/name` when the trimmed prefix is
empty and `/trimmed/name` otherwise. -/
theorem addResource_registers_seven_bindings (Jsonify Pluralize : String → String) (api : API)
    (prototype : Prototype) (api1 : API) (res : resource)
    (h : addResource Jsonify Pluralize api prototype = .ok (api1, res)) :
    api1.router = api.router ++ specBindings (specBasePath api.info.pathPrefix res.name) ∧
    (specBindings (specBasePath api.info.pathPrefix res.name)).length = 7 ∧
    api1.router.length = api.router.length + 7 := by
  have h1 := (addResource_ok Jsonify Pluralize api prototype api1 res h).1
  refine ⟨h1, rfl, ?_⟩
  rw [h1, List.length_append]
  rfl

/-- C3 at prefix `/v1/` and prototype `Post{}`: the seven routes under
`/v1/posts`. -/
theorem addResource_registers_seven_bindings_witness :
    (∃ api1 res, addResource lowerJsonify appendPluralize (newAPI "/v1/" false []) postValue
        = .ok (api1, res) ∧
      api1.router =
        [ Route.mk "OPTIONS" "/v1/posts" .optionsBase,
          Route.mk "OPTIONS" "/v1/posts/:id" .optionsItem,
          Route.mk "GET" "/v1/posts" .index,
          Route.mk "GET" "/v1/posts/:id" .read,
          Route.mk "POST" "/v1/posts" .create,
          Route.mk "DELETE" "/v1/posts/:id" .delete,
          Route.mk "PATCH" "/v1/posts/:id" .update ]) :=
  ⟨_, _, rfl,
    (addResource_registers_seven_bindings lowerJsonify appendPluralize (newAPI "/v1/" false [])
      postValue _ _ rfl).1.trans (by decide)⟩

/-- C6, evaluated on a prototype of type `*MyInt` (a pointer to a named
non-struct type with `GetID`): `addResource` does not panic; it registers seven
routes under the name derived from `MyInt`. Only the kind of the prototype
itself is tested, never the kind of the pointed-to type. -/
theorem addResource_accepts_pointer_to_non_struct (Jsonify Pluralize : String → String) :
    ∃ api1 res, addResource Jsonify Pluralize (newAPI "" false []) myIntPointer = .ok (api1, res) ∧
      AddResource Jsonify Pluralize (newAPI "" false []) myIntPointer = .ok api1 ∧
      res.name = Jsonify (Pluralize "MyInt") ∧
      api1.router = specBindings ("/" ++ Jsonify (Pluralize "MyInt")) :=
  ⟨_, _, rfl, rfl, rfl, rfl⟩

/-- A prototype whose kind is neither struct nor pointer makes `addResource`
panic with its message, before any route is registered. -/
theorem addResource_rejects_other_kinds (Jsonify Pluralize : String → String) (api : API)
    (prototype : Prototype) (h1 : prototype.rtype.kind ≠ Kind.Struct)
    (h2 : prototype.rtype.kind ≠ Kind.Ptr) :
    addResource Jsonify Pluralize api prototype
      = .error "pass an empty resource struct or a struct pointer to AddResource!" := by
  simp [addResource, h1, h2]

/-- C7: for every prototype `addResource` accepts, a prototype with `GetName`
is named by exactly that string and every route registered for it is the base
path built from that string, or that base path followed by `/:id`; a prototype
without `GetName` is named `Jsonify(Pluralize(T))`, with `T` the identifier of
the struct type or of the pointed-to type; hence `Post{}` and `&Post{}` are both
named `Jsonify(Pluralize("Post"))`. -/
theorem addResource_canonical_name (Jsonify Pluralize : String → String) (api : API)
    (prototype : Prototype) (api1 : API) (res : resource)
    (h : addResource Jsonify Pluralize api prototype = .ok (api1, res)) :
    (∀ n, prototype.entityName = some n →
      res.name = n ∧
      ∀ rt ∈ api1.router.drop api.router.length,
        rt.route = specBasePath api.info.pathPrefix n ∨
        rt.route = specBasePath api.info.pathPrefix n ++ "/:id") ∧
    (prototype.entityName = none → prototype.rtype.kind = Kind.Struct →
      res.name = Jsonify (Pluralize prototype.rtype.name)) ∧
    (prototype.entityName = none → prototype.rtype.kind = Kind.Ptr →
      ∀ k T, prototype.rtype.elem = some (k, T) → res.name = Jsonify (Pluralize T)) ∧
    (∃ a1 r1 a2 r2, addResource Jsonify Pluralize api postValue = .ok (a1, r1) ∧
      addResource Jsonify Pluralize api postPointer = .ok (a2, r2) ∧
      r1.name = Jsonify (Pluralize "Post") ∧ r2.name = Jsonify (Pluralize "Post")) := by
  obtain ⟨h1, _, h3, h4, h5⟩ := addResource_ok Jsonify Pluralize api prototype api1 res h
  refine ⟨?_, h4, h5, ⟨_, _, _, _, rfl, rfl, rfl, rfl⟩⟩
  intro n hn
  have hname := h3 n hn
  refine ⟨hname, ?_⟩
  intro rt hrt
  rw [h1, List.drop_left, hname] at hrt
  simp only [specBindings, List.mem_cons, List.mem_singleton, List.not_mem_nil, or_false] at hrt
  rcases hrt with h | h | h | h | h | h | h <;> subst h <;> simp

/-- C7 at `&Post{}` with `GetName() = "Articles"` under prefix `api`: the name
is `Articles`, untouched by the helpers. -/
theorem addResource_canonical_name_witness :
    ∃ api1 res, addResource lowerJsonify appendPluralize (newAPI "api" false []) namedPointer
        = .ok (api1, res) ∧
      res.name = "Articles" ∧
      ∀ rt ∈ api1.router.drop 0,
        rt.route = "/api/Articles" ∨ rt.route = "/api/Articles" ++ "/:id" :=
  ⟨_, _, rfl,
    (addResource_canonical_name lowerJsonify appendPluralize (newAPI "api" false [])
      namedPointer _ _ rfl).1 "Articles" rfl⟩

/-! ## Responses (C4, C5, C9) -/

/-- C4: on a response nothing was written to, `notAllowedHandler.ServeHTTP`
leaves status 405 and exactly the body `{"error":"Method Not Allowed"}`; the
`WriteHeader(404)` inside `handleError` comes second and changes nothing. -/
theorem notAllowed_status_and_body (isPrintWide : Char → Bool) (w : ResponseWriter)
    (r : Request) (hw : w.wroteHeader = false) (hb : w.body = "") :
    (notAllowedHandler.ServeHTTP isPrintWide w r).wroteHeader = true ∧
    (notAllowedHandler.ServeHTTP isPrintWide w r).status = 405 ∧
    (notAllowedHandler.ServeHTTP isPrintWide w r).body
      = "\x7b\"error\":\"Method Not Allowed\"\x7d" := by
  have hq : Quote isPrintWide "Method Not Allowed" = "\"Method Not Allowed\"" := rfl
  simp only [notAllowedHandler.ServeHTTP, handleError, ResponseWriter.Write,
    ResponseWriter.WriteHeader, ResponseWriter.HeaderSet, hw, hb, hq]
  refine ⟨by simp, by simp, by simp⟩

/-- C4 on a fresh response to a `PUT` request. -/
theorem notAllowed_status_and_body_witness :
    (notAllowedHandler.ServeHTTP (fun _ => true) ResponseWriter.fresh
        { method := "PUT", query := [], body := "" }).wroteHeader = true ∧
    (notAllowedHandler.ServeHTTP (fun _ => true) ResponseWriter.fresh
        { method := "PUT", query := [], body := "" }).status = 405 ∧
    (notAllowedHandler.ServeHTTP (fun _ => true) ResponseWriter.fresh
        { method := "PUT", query := [], body := "" }).body
      = "\x7b\"error\":\"Method Not Allowed\"\x7d" :=
  notAllowed_status_and_body (fun _ => true) ResponseWriter.fresh
    { method := "PUT", query := [], body := "" } rfl rfl

/-- C5 as stated fails twice. Called after `WriteHeader(405)`, as
`notAllowedHandler.ServeHTTP` calls it, `handleError` leaves status 405 and the
content type is not among the headers sent. And behind a middleware that has
answered 401, `GET /rows/abc` fails in `handleRead` with the parse error, yet
the response keeps status 401. -/
theorem failure_status_is_not_always_404 :
    (handleError (fun _ => true) "Method Not Allowed"
        (ResponseWriter.fresh.WriteHeader 405)).status = 405 ∧
    Header.Get (handleError (fun _ => true) "Method Not Allowed"
        (ResponseWriter.fresh.WriteHeader 405)).sentHeader "Content-Type" = "" ∧
    (handleRead (fun _ => true) rowCodec tableStore (sampleRows 3)
        (ResponseWriter.fresh.WriteHeader 401) [("id", "abc")]).err
      = some "strconv.ParseInt: parsing \"abc\": invalid syntax" ∧
    (serve (fun _ => true) rowCodec tableStore (UseMiddleware (newAPI "" false []) [denyAll])
        .read [("id", "abc")] ResponseWriter.fresh (getRequest [])
        (startState (sampleRows 3))).1.status = 401 ∧
    (serve (fun _ => true) rowCodec tableStore (UseMiddleware (newAPI "" false []) [denyAll])
        .read [("id", "abc")] ResponseWriter.fresh (getRequest [])
        (startState (sampleRows 3))).1.body
      = "\x7b\"error\":\"strconv.ParseInt: parsing \\\"abc\\\": invalid syntax\"\x7d" := by
  decide

/-- C5, amended: for every GET, POST, PATCH and DELETE binding and every error
its CRUD handler returns, provided that in this invocation the response header
and body are still unwritten when the handler runs, that is after the
middleware chain, the response has status 404, content type `application/json`
among the headers sent, and body `{"error":<quoted message>}`. -/
theorem crud_failure_response {σ Rec : Type} (isPrintWide : Char → Bool) (codec : Codec Rec)
    (store : Store σ Rec) (api : API) (b : Binding) (params : List (String × String))
    (w : ResponseWriter) (r : Request) (s : State σ) (e : String)
    (hb : b.isCRUD = true)
    (hw : (acquire api w r (entry api b r s)).w.wroteHeader = false)
    (hbody : (acquire api w r (entry api b r s)).w.body = "")
    (he : (crud isPrintWide codec store b (acquire api w r (entry api b r s)).s.db
      (acquire api w r (entry api b r s)).w (acquire api w r (entry api b r s)).r params).err
        = some e) :
    IsFailureResponse isPrintWide e (serve isPrintWide codec store api b params w r s).1 := by
  rw [serve_crud isPrintWide codec store api b params w r s hb]
  rw [he]
  simp only [report]
  rcases crud_error_writer isPrintWide codec store b _ _ _ params e he with h | h
  · rw [h]; exact handleError_unwritten isPrintWide e _ hw hbody
  · rw [h]; exact handleError_after_404 isPrintWide e _ hw hbody

/-- C5, amended, at `GET /rows/99?token=ok` on a table of three rows, behind a
middleware that sets a header and one that answers 401 on other requests but
lets this one through: gorm's "record not found" comes back as the failure
response. -/
theorem crud_failure_response_witness :
    IsFailureResponse (fun _ => true) "record not found"
      (serve (fun _ => true) rowCodec tableStore
        (UseMiddleware (newAPI "" false []) [tagResponse, authGate]) .read [("id", "99")]
        ResponseWriter.fresh (getRequest [("token", "ok")]) (startState (sampleRows 3))).1 :=
  crud_failure_response (fun _ => true) rowCodec tableStore
    (UseMiddleware (newAPI "" false []) [tagResponse, authGate]) .read [("id", "99")]
    ResponseWriter.fresh (getRequest [("token", "ok")]) (startState (sampleRows 3))
    "record not found" rfl (by decide) (by decide) (by decide)

/-- C9 as stated fails on a table holding one row with identity 1: the first
`DELETE /rows/1` succeeds and empties the table; the second one finds nothing
to delete, `handleDelete` returns nil again, `handleError` is not called and
the response is left as untouched as after the first. -/
theorem second_delete_is_not_a_failure :
    (serve (fun _ => true) rowCodec tableStore (newAPI "" false []) .delete [("id", "1")]
        ResponseWriter.fresh deleteRequest (startState [Row.mk 1 "a"])).2.db = [] ∧
    (serve (fun _ => true) rowCodec tableStore (newAPI "" false []) .delete [("id", "1")]
        ResponseWriter.fresh deleteRequest (startState [Row.mk 1 "a"])).1
      = ResponseWriter.fresh ∧
    (handleDelete tableStore
        (serve (fun _ => true) rowCodec tableStore (newAPI "" false []) .delete [("id", "1")]
          ResponseWriter.fresh deleteRequest (startState [Row.mk 1 "a"])).2.db
        ResponseWriter.fresh [("id", "1")]).err = none ∧
    (serve (fun _ => true) rowCodec tableStore (newAPI "" false []) .delete [("id", "1")]
        ResponseWriter.fresh deleteRequest
        (serve (fun _ => true) rowCodec tableStore (newAPI "" false []) .delete [("id", "1")]
          ResponseWriter.fresh deleteRequest (startState [Row.mk 1 "a"])).2).1
      = ResponseWriter.fresh ∧
    Event.handleError ∉
      (serve (fun _ => true) rowCodec tableStore (newAPI "" false []) .delete [("id", "1")]
        ResponseWriter.fresh deleteRequest
        (serve (fun _ => true) rowCodec tableStore (newAPI "" false []) .delete [("id", "1")]
          ResponseWriter.fresh deleteRequest (startState [Row.mk 1 "a"])).2).2.trace := by
  decide

/-- C9, amended: a DELETE through the binding is answered with the failure
response for "Failed to delete object" exactly when the store's delete reports
an error, and otherwise leaves the response as the middleware chain left it;
`handleDelete` never looks whether the identity exists. On the reference table,
whose delete of an absent identity is no error, `handleDelete` returns nil for
every state and identity, so a repeated DELETE is answered like the first. -/
theorem delete_fails_only_on_store_error {σ Rec : Type} (isPrintWide : Char → Bool)
    (codec : Codec Rec) (store : Store σ Rec) (api : API) (params : List (String × String))
    (w : ResponseWriter) (r : Request) (s : State σ) :
    (serve isPrintWide codec store api .delete params w r s).1 =
      (match store.Delete s.db (paramGet params "id") with
        | .error _ => handleError isPrintWide "Failed to delete object" (acquire api w r s).w
        | .ok _ => (acquire api w r s).w) ∧
    (∀ (db : List Row) (w1 : ResponseWriter) (params1 : List (String × String)),
      (handleDelete tableStore db w1 params1).err = none) := by
  constructor
  · have hdb := (acquire_spec api w r s).2.2.1
    simp only [serve, handleDelete, State.log, hdb]
    cases store.Delete s.db (paramGet params "id") <;> simp [report]
  · intro db w1 params1
    rfl

/-! ## Context lifecycle (C8) -/

/-- C8: for each of the seven bindings, whatever the handler returns, the events
of one invocation are: the context `c` is taken from the pool, `Reset` is called
on `c`, every middleware registered so far, those passed to `UseMiddleware`
last, is called once on `c` in list order, the handler of the binding runs on
`c`, `c` is put back into the pool. Before these there can only be the binding
of the request to the resolver, after them only the call of `handleError`; the
pool ends with `c` on top of what it held besides `c`. -/
theorem binding_event_sequence {σ Rec : Type} (isPrintWide : Char → Bool) (codec : Codec Rec) (store : Store σ Rec)
    (api : API) (middleware : List HandlerFunc) (b : Binding) (params : List (String × String))
    (w : ResponseWriter) (r : Request) (s : State σ) :
    ∃ pre post, (∀ e ∈ pre, e = Event.setRequest) ∧ (∀ e ∈ post, e = Event.handleError) ∧
      (serve isPrintWide codec store (UseMiddleware api middleware) b params w r s).2.trace
        = s.trace ++ pre
          ++ [Event.poolGet (nextContext s), Event.reset (nextContext s)]
          ++ (api.middlewares ++ middleware).map (fun m => Event.middleware m.tag (nextContext s))
          ++ [Event.handler b (nextContext s), Event.poolPut (nextContext s)]
          ++ post ∧
      ((serve isPrintWide codec store (UseMiddleware api middleware) b params w r s).2.idle.map APIContext.id)
        = nextContext s :: s.idle.tail.map APIContext.id := by
  have hm : (UseMiddleware api middleware).middlewares = api.middlewares ++ middleware := rfl
  by_cases hb : b.isCRUD = true
  · rw [serve_crud isPrintWide codec store _ b params w r s hb]
    obtain ⟨e1, e2, e3, pre, hpre, e4⟩ := entry_spec (UseMiddleware api middleware) b r s
    obtain ⟨a1, a2, a3, a4⟩ :=
      acquire_spec (UseMiddleware api middleware) w r (entry (UseMiddleware api middleware) b r s)
    obtain ⟨r1, r2, post, hpost, r3⟩ := report_spec isPrintWide
      (crud isPrintWide codec store b (acquire (UseMiddleware api middleware) w r
          (entry (UseMiddleware api middleware) b r s)).s.db
        (acquire (UseMiddleware api middleware) w r
          (entry (UseMiddleware api middleware) b r s)).w
        (acquire (UseMiddleware api middleware) w r
          (entry (UseMiddleware api middleware) b r s)).r params).err
      (crud isPrintWide codec store b (acquire (UseMiddleware api middleware) w r
          (entry (UseMiddleware api middleware) b r s)).s.db
        (acquire (UseMiddleware api middleware) w r
          (entry (UseMiddleware api middleware) b r s)).w
        (acquire (UseMiddleware api middleware) w r
          (entry (UseMiddleware api middleware) b r s)).r params).w
      (contextPoolPut (acquire (UseMiddleware api middleware) w r
          (entry (UseMiddleware api middleware) b r s)).c
        { (acquire (UseMiddleware api middleware) w r
            (entry (UseMiddleware api middleware) b r s)).s.log
            (.handler b (acquire (UseMiddleware api middleware) w r
              (entry (UseMiddleware api middleware) b r s)).c.id) with
          db := (crud isPrintWide codec store b (acquire (UseMiddleware api middleware) w r
              (entry (UseMiddleware api middleware) b r s)).s.db
            (acquire (UseMiddleware api middleware) w r
              (entry (UseMiddleware api middleware) b r s)).w
            (acquire (UseMiddleware api middleware) w r
              (entry (UseMiddleware api middleware) b r s)).r params).db })
    refine ⟨pre, post, hpre, hpost, ?_, ?_⟩
    · rw [r3]; simp [contextPoolPut, State.log, a1, a2, hm, e1, e4]
    · rw [r1]; simp [contextPoolPut, State.log, a1, a4, e1, e3]
  · obtain ⟨a1, a2, a3, a4⟩ := acquire_spec (UseMiddleware api middleware) w r s
    cases b <;> first
      | exact absurd rfl hb
      | exact ⟨[], [], by simp, by simp,
          by simp [serve, contextPoolPut, State.log, a1, a2, hm],
          by simp [serve, contextPoolPut, State.log, a1, a4]⟩

/-- C8 on a run: `GET /rows/abc` with two middlewares and an empty pool. The
handler fails, and the context, number 0, is back in the pool before
`handleError` is called. -/
theorem binding_event_sequence_example :
    (serve (fun _ => true) rowCodec tableStore
        (UseMiddleware (UseMiddleware (newAPI "" true []) [tagContext]) [tagResponse])
        .read [("id", "abc")] ResponseWriter.fresh (getRequest [])
        (startState (sampleRows 3))).2.trace
      = [Event.setRequest, Event.poolGet 0, Event.reset 0, Event.middleware 5 0,
          Event.middleware 3 0, Event.handler .read 0, Event.poolPut 0, Event.handleError] ∧
    (serve (fun _ => true) rowCodec tableStore
        (UseMiddleware (UseMiddleware (newAPI "" true []) [tagContext]) [tagResponse])
        .read [("id", "abc")] ResponseWriter.fresh (getRequest [])
        (startState (sampleRows 3))).2.idle
      = [APIContext.mk 0 [("user", "anonymous")]] := by
  decide

end Api2rest
